import Mathlib

/-!
# Verification of the AI-attribution CI scripts

Shallow embedding of the attribution pipeline implemented by
`/.github/scripts/ai-attribution.js` and the two script revisions contained in
`src/unnamed/part_000` ("variant A", the added+deleted / strict-bold revision at
the top of the file, and "variant B", the added-only / tolerant-bold revision
after the separator).

Modelling conventions:
* Strings are processed as `List Char` (`String.data`); all scanners are
  executable structural recursions that mirror the JavaScript regular
  expressions used by the scripts (leftmost-match search, greedy quantifiers).
* JavaScript numbers: commit volumes and the accumulators are integers that the
  scripts keep well inside the exactly-representable double range, so they are
  modelled as `ℕ`/`ℤ`.  The one genuinely fractional computation,
  `Math.round((aiVol / totalVol) * 100)`, is modelled exactly: `fl53` performs
  IEEE-754 round-to-nearest-even at 53 significant bits (binary64 with
  unbounded exponent, which agrees with binary64 on the magnitudes the script
  can produce), and `Math.round` on the resulting double is `round` (floor of
  x + 1/2, which is the ECMA-262 definition for the values in range here).
* `process.exit(1)` after a diagnostic is modelled as `Except.error msg`;
  the two `GITHUB_ENV` appends only happen in the `Except.ok` branch, so an
  `.ok` result carries exactly the data of the written values.
* External collaborators (git queries, the optional pattern file, the GitHub
  API refetch) are inputs: per-commit git query results are a `CommitData`
  record, the refetch is an `Except Unit String` while `new RegExp` compilation
  is an abstract `String → Except Unit α`.
-/

namespace AIAttr

/-! ## Character classes used by the scripts' regular expressions -/

/-- JavaScript `\s` (ECMAScript WhiteSpace ∪ LineTerminator). -/
def isJsWS (c : Char) : Bool :=
  c = ' ' || c = '\t' || c = '\n' || c = '\r' ||
  c.val = 0x0b || c.val = 0x0c || c.val = 0xa0 || c.val = 0x1680 ||
  (0x2000 ≤ c.val && c.val ≤ 0x200a) ||
  c.val = 0x2028 || c.val = 0x2029 || c.val = 0x202f || c.val = 0x205f ||
  c.val = 0x3000 || c.val = 0xfeff

/-- JavaScript `[0-9]`. -/
def isDig (c : Char) : Bool := 48 ≤ c.toNat && c.toNat ≤ 57

/-- JavaScript `\w` = `[A-Za-z0-9_]`. -/
def isWordChar (c : Char) : Bool :=
  (48 ≤ c.toNat && c.toNat ≤ 57) || (65 ≤ c.toNat && c.toNat ≤ 90) ||
  (97 ≤ c.toNat && c.toNat ≤ 122) || c = '_'

/-- The dash class `[\-‐-―−]` of the Declared-AI-Percent regexes
in part_000 (ASCII hyphen, Unicode hyphens/dashes, minus sign). -/
def isDeclDash (c : Char) : Bool :=
  c = '-' || (0x2010 ≤ c.val && c.val ≤ 0x2015) || c.val = 0x2212

/-- JavaScript LineTerminator (what `^`/`$` with the `m` flag anchor around). -/
def isLineTerm (c : Char) : Bool :=
  c = '\n' || c = '\r' || c.val = 0x2028 || c.val = 0x2029

/-! ## String helpers -/

/-- Consume `\s*`. -/
def dropWS (cs : List Char) : List Char := cs.dropWhile isJsWS

/-- JavaScript `String.prototype.trim`. -/
def jsTrim (cs : List Char) : List Char :=
  ((cs.dropWhile isJsWS).reverse.dropWhile isJsWS).reverse

/-- Case-insensitive literal matcher: `eatLit pat cs` consumes `pat` (given in
lower case) from the front of `cs`, comparing lowered characters, and returns
the rest.  Models a literal run inside a `/.../i` regex. -/
def eatLit : List Char → List Char → Option (List Char)
  | [], cs => some cs
  | _ :: _, [] => none
  | p :: ps, c :: cs => if c.toLower = p then eatLit ps cs else none

/-- Numeric value of a digit character. -/
def digitVal (c : Char) : ℕ := c.toNat - 48

/-- Greedily consume up to `k` more digits, extending the accumulator.
Models the tail of a greedy `[0-9]{1,3}` capture. -/
def takeDigits : ℕ → ℕ → List Char → ℕ × List Char
  | 0, acc, cs => (acc, cs)
  | _ + 1, acc, [] => (acc, [])
  | k + 1, acc, c :: cs =>
    if isDig c then takeDigits k (10 * acc + digitVal c) cs else (acc, c :: cs)

/-- Greedy `([0-9]{1,3})`: at least one digit, at most three. -/
def eatDigits13 : List Char → Option (ℕ × List Char)
  | [] => none
  | c :: cs => if isDig c then some (takeDigits 2 (digitVal c) cs) else none

/-- Greedily consume a whole digit run (`\d+`), extending the accumulator. -/
def takeAllDigits : List Char → ℕ → ℕ × List Char
  | [], acc => (acc, [])
  | c :: cs, acc =>
    if isDig c then takeAllDigits cs (10 * acc + digitVal c) else (acc, c :: cs)

/-- Leftmost-match regex search: try the position matcher `f` at every suffix,
left to right.  Models `String.prototype.match` for the patterns here. -/
def searchOpt (f : List Char → Option ℕ) : List Char → Option ℕ
  | [] => f []
  | c :: cs =>
    match f (c :: cs) with
    | some v => some v
    | none => searchOpt f cs

/-- Split on a character class; used for `split('\n')`, `split('/')` and the
multiline anchors. -/
def splitByAux (p : Char → Bool) : List Char → List Char → List (List Char)
  | [], acc => [acc.reverse]
  | c :: cs, acc =>
    if p c then acc.reverse :: splitByAux p cs [] else splitByAux p cs (c :: acc)

/-- Split a character list at every character satisfying `p`. -/
def splitBy (p : Char → Bool) (cs : List Char) : List (List Char) :=
  splitByAux p cs []

/-- The lines a `/^...$/m` regex anchors on. -/
def splitLines (cs : List Char) : List (List Char) := splitBy isLineTerm cs

/-- JavaScript `split('\n')`. -/
def splitNL (cs : List Char) : List (List Char) := splitBy (fun c => c = '\n') cs

/-- Case-insensitive prefix test on lowered text (pattern given lowered). -/
def startsWithCL : List Char → List Char → Bool
  | [], _ => true
  | _ :: _, [] => false
  | p :: ps, c :: cs => p = c && startsWithCL ps cs

/-- Substring search on lowered text; models `re.test` for a literal
case-insensitive pattern such as `/copilot/i`. -/
def containsCL (pat : List Char) : List Char → Bool
  | [] => startsWithCL pat []
  | c :: cs => startsWithCL pat (c :: cs) || containsCL pat cs

/-- Lower a character list. -/
def lowerCL (cs : List Char) : List Char := cs.map Char.toLower

/-- The test function of one of the default AI-identity patterns:
case-insensitive substring containment. -/
def ciTest (pat : String) (s : String) : Bool :=
  containsCL (lowerCL pat.data) (lowerCL s.data)

/-! ## Declared-AI-Percent parsing

Three parser revisions exist in the repository:
* `parseDeclaredMain` — ai-attribution.js, regex
  `/Declared-AI-Percent:\s*([0-9]{1,3})/i` (colon required directly after the
  label, no bold tolerance);
* `parseDeclaredStrict` — part_000 variant A, regex
  `/(?:\*\*)\s*Declared[-]AI[-]Percent\s*(?:\*\*)\s*:\s*([0-9]{1,3})\s*%?\s*/i`
  (the bold markers are present but NOT optional: a `?` is missing, so the
  label must be wrapped in `**`);
* `parseDeclaredTol` — part_000 variant B, regex
  `/(?:\*\*)?\s*Declared[-]AI[-]Percent(?:\*\*)?\s*:\s*([0-9]{1,3})\s*%?\s*/i`
  (bold optional on both sides).
All three fall back to `/Estimated\s*%[^0-9]*([0-9]{1,3})/i`.
-/

/-- Position matcher for `/Declared-AI-Percent:\s*([0-9]{1,3})/i`. -/
def matchMainAt (cs : List Char) : Option ℕ :=
  match eatLit "declared-ai-percent:".data cs with
  | none => none
  | some r =>
    match eatDigits13 (dropWS r) with
    | none => none
    | some (v, _) => some v

/-- Position matcher for `/Estimated\s*%[^0-9]*([0-9]{1,3})/i`. -/
def matchEstAt (cs : List Char) : Option ℕ :=
  match eatLit "estimated".data cs with
  | none => none
  | some r =>
    match dropWS r with
    | [] => none
    | c :: r2 =>
      if c = '%' then
        match eatDigits13 (r2.dropWhile (fun d => !(isDig d))) with
        | none => none
        | some (v, _) => some v
      else none

/-- ai-attribution.js declared-percent parser (applied to the trimmed PR body):
first regex wins, `parseInt` of a digits-only capture can never be `NaN`. -/
def parseDeclaredMain (body : List Char) : Option ℤ :=
  match searchOpt matchMainAt body with
  | some v => some ((v : ℕ) : ℤ)
  | none =>
    match searchOpt matchEstAt body with
    | some v => some ((v : ℕ) : ℤ)
    | none => none

/-- Consume `Declared[-dash]AI[-dash]Percent` (case-insensitive, any glyph of
the dash class between the words). -/
def matchLabelCore (cs : List Char) : Option (List Char) :=
  match eatLit "declared".data cs with
  | none => none
  | some r1 =>
    match r1 with
    | [] => none
    | d1 :: r2 =>
      if isDeclDash d1 then
        match eatLit "ai".data r2 with
        | none => none
        | some r3 =>
          match r3 with
          | [] => none
          | d2 :: r4 => if isDeclDash d2 then eatLit "percent".data r4 else none
      else none

/-- Consume `\s*:\s*([0-9]{1,3})` and return the capture. -/
def matchColonDigits (cs : List Char) : Option ℕ :=
  match dropWS cs with
  | ':' :: r =>
    match eatDigits13 (dropWS r) with
    | some (v, _) => some v
    | none => none
  | _ => none

/-- Position matcher for part_000 variant A's strict regex: the `**` wrappers
are mandatory. -/
def matchStrictAt (cs : List Char) : Option ℕ :=
  match eatLit "**".data cs with
  | none => none
  | some r0 =>
    match matchLabelCore (dropWS r0) with
    | none => none
    | some r1 =>
      match eatLit "**".data (dropWS r1) with
      | none => none
      | some r2 => matchColonDigits r2

/-- Label-to-capture part of the tolerant regex: after `Percent`, an optional
(greedy, backtrackable) `**`, then `\s*:\s*` and the digits. -/
def matchTolTail (cs : List Char) : Option ℕ :=
  match eatLit "**".data cs with
  | some r =>
    match matchColonDigits r with
    | some v => some v
    | none => matchColonDigits cs
  | none => matchColonDigits cs

/-- Tolerant matcher after the optional leading bold: `\s*` then the label. -/
def matchTolCore (cs : List Char) : Option ℕ :=
  match matchLabelCore (dropWS cs) with
  | none => none
  | some r1 => matchTolTail r1

/-- Position matcher for part_000 variant B's tolerant regex: optional
(greedy, backtrackable) `**` before the label. -/
def matchTolAt (cs : List Char) : Option ℕ :=
  match eatLit "**".data cs with
  | some r =>
    match matchTolCore r with
    | some v => some v
    | none => matchTolCore cs
  | none => matchTolCore cs

/-- part_000 variant A declared-percent parser (`parseDeclared`), including its
`if (!body) return null` guard. -/
def parseDeclaredStrict (body : List Char) : Option ℤ :=
  if body.isEmpty then none
  else
    match searchOpt matchStrictAt body with
    | some v => some ((v : ℕ) : ℤ)
    | none =>
      match searchOpt matchEstAt body with
      | some v => some ((v : ℕ) : ℤ)
      | none => none

/-- part_000 variant B declared-percent parser (`parseDeclared`), including its
`if (!body) return null` guard. -/
def parseDeclaredTol (body : List Char) : Option ℤ :=
  if body.isEmpty then none
  else
    match searchOpt matchTolAt body with
    | some v => some ((v : ℕ) : ℤ)
    | none =>
      match searchOpt matchEstAt body with
      | some v => some ((v : ℕ) : ℤ)
      | none => none

/-- The validation gate shared by all three scripts:
`declaredPct === null || declaredPct < 0 || declaredPct > 100`. -/
def declaredInvalid (d : Option ℤ) : Bool :=
  match d with
  | none => true
  | some n => n < 0 || 100 < n

/-! ## IEEE-754 binary64 model for the computed percentage

`Math.round((aiVol / totalVol) * 100)` performs two correctly-rounded double
operations (the division and the multiplication; the integer inputs are exact)
followed by ECMA-262 `Math.round`.  `fl53` is round-to-nearest-even at 53
significant bits with unbounded exponent, which coincides with binary64 on
every value this expression can take (the quotient lies in (0, 1], far from
the subnormal and overflow ranges). -/

/-- Round a rational to the nearest integer, ties to even. -/
def rhe (x : ℚ) : ℤ :=
  if x - ⌊x⌋ < 1 / 2 then ⌊x⌋
  else if 1 / 2 < x - ⌊x⌋ then ⌊x⌋ + 1
  else if 2 ∣ ⌊x⌋ then ⌊x⌋ else ⌊x⌋ + 1

/-- Round a rational to the nearest floating-point value with a 53-bit
significand (round-to-nearest, ties to even); nonpositive inputs (only 0
arises in the scripts) map to 0. -/
def fl53 (q : ℚ) : ℚ :=
  if q ≤ 0 then 0
  else (rhe (q * (2 : ℚ) ^ ((52 : ℤ) - Int.log 2 q)) : ℚ) *
    (2 : ℚ) ^ (Int.log 2 q - 52)

/-- The computed percentage:
`totalAdded === 0 ? 0 : Math.round((aiAdded / totalAdded) * 100)` with double
arithmetic made explicit. -/
def computedPct (aiVol humanVol : ℕ) : ℤ :=
  if aiVol + humanVol = 0 then 0
  else round (fl53 (fl53 ((aiVol : ℚ) / ((aiVol : ℚ) + (humanVol : ℚ))) * 100))

/-- The idealised computed percentage the specification describes:
exact rational rounding of `100*a/(a+h)`. -/
def specComputedPct (aiVol humanVol : ℕ) : ℤ :=
  if aiVol + humanVol = 0 then 0
  else round ((100 * (aiVol : ℚ)) / ((aiVol : ℚ) + (humanVol : ℚ)))

/-- The final percentage: `Math.max(computedPct, declaredPct)`. -/
def finalPct (computed declared : ℤ) : ℤ := max computed declared

/-! ## Commit classification -/

/-- Per-commit identity fields returned by
`git show -s --format=%H%n%an%n%ae%n%cn%n%ce`. -/
structure CommitMeta where
  sha : String
  authorName : String
  authorEmail : String
  committerName : String
  committerEmail : String

/-- One identity pattern applied to all four identity fields
(`re.test(meta.authorName) || ... || re.test(meta.committerEmail)`);
the pattern itself is abstracted as a test function on strings. -/
def identityMatch (re : String → Bool) (m : CommitMeta) : Bool :=
  re m.authorName || re m.authorEmail || re m.committerName || re m.committerEmail

/-- The default AI-identity pattern list
`[/codex/i, /copilot/i, /chatgpt/i, /openai/i, /\[bot\]/i]`:
all five are case-insensitive substring tests. -/
def defaultPatternTests : List (String → Bool) :=
  [ciTest "codex", ciTest "copilot", ciTest "chatgpt", ciTest "openai",
    ciTest "[bot]"]

/-- Marker test of ai-attribution.js and part_000 variant B:
`/^\s*AI:\s*true\s*$/im` — some line is `\s*AI:\s*true\s*` (note: no
whitespace is allowed between `AI` and the colon). -/
def markerLineMain (line : List Char) : Bool :=
  match eatLit "ai:".data (dropWS line) with
  | none => false
  | some r =>
    match eatLit "true".data (dropWS r) with
    | none => false
    | some r2 => (dropWS r2).isEmpty

/-- Multiline search for the standalone marker line. -/
def hasMarkerMain (msg : List Char) : Bool := (splitLines msg).any markerLineMain

/-- Position matcher for part_000 variant A's `/\bAI\s*:\s*true\b/i`:
a word boundary before `AI` (checked against the previous character),
whitespace allowed around the colon, and a word boundary after `true`. -/
def matchMarkerAAt (prev : Option Char) (cs : List Char) : Bool :=
  (match prev with
   | none => true
   | some p => !(isWordChar p)) &&
  (match eatLit "ai".data cs with
   | none => false
   | some r =>
     match dropWS r with
     | ':' :: r2 =>
       (match eatLit "true".data (dropWS r2) with
        | none => false
        | some r3 =>
          match r3 with
          | [] => true
          | c :: _ => !(isWordChar c))
     | _ => false)

/-- Search every position, remembering the previous character for the word
boundary check. -/
def hasMarkerAAux : Option Char → List Char → Bool
  | prev, [] => matchMarkerAAt prev []
  | prev, c :: cs => matchMarkerAAt prev (c :: cs) || hasMarkerAAux (some c) cs

/-- part_000 variant A's `hasAIMarker` (matches anywhere in the message, not
only on a standalone line, but tolerates whitespace on both sides of the
colon). -/
def hasMarkerA (msg : List Char) : Bool := hasMarkerAAux none msg

/-- ai-attribution.js / part_000 variant B `isAICommit`: the in-message marker
is checked first and wins; otherwise any pattern matching any identity field
classifies AI. -/
def isAICommitMain (pats : List (String → Bool)) (meta : CommitMeta)
    (message : String) : Bool :=
  if hasMarkerMain message.data then true
  else pats.any fun re => identityMatch re meta

/-- part_000 variant A `isAICommit` (same shape, different marker test). -/
def isAICommitA (pats : List (String → Bool)) (meta : CommitMeta)
    (message : String) : Bool :=
  if hasMarkerA message.data then true
  else pats.any fun re => identityMatch re meta

/-- The marker line exactly as claim C5 words it: standalone line `AI: true`,
case-insensitive, tolerant of internal whitespace around (on both sides of)
the colon.  Clearly spec-side: used only to compare the spec's wording with
the code's `markerLineMain`. -/
def specMarkerLine (line : List Char) : Bool :=
  match eatLit "ai".data (dropWS line) with
  | none => false
  | some r =>
    match dropWS r with
    | ':' :: r2 =>
      (match eatLit "true".data (dropWS r2) with
       | none => false
       | some r3 => (dropWS r3).isEmpty)
    | _ => false

/-! ## Volume extraction from `git show --numstat --format=` output -/

/-- One `(\d+|-)` token: a greedy digit run or a single `-`
(binary-file marker, reported as `none`). -/
def parseCount : List Char → Option (Option ℕ × List Char)
  | [] => none
  | c :: cs =>
    if isDig c then
      let p := takeAllDigits cs (digitVal c)
      some (some p.1, p.2)
    else if c = '-' then some (none, cs) else none

/-- One `\s+` separator. -/
def eatWS1 : List Char → Option (List Char)
  | [] => none
  | c :: cs => if isJsWS c then some (dropWS cs) else none

/-- Match `/^(\d+|-)\s+(\d+|-)\s+/` against one numstat line, returning the two
captures (`none` = the `-` binary marker). -/
def parseNumstatLine (line : List Char) : Option (Option ℕ × Option ℕ) :=
  match parseCount line with
  | none => none
  | some (a, r1) =>
    match eatWS1 r1 with
    | none => none
    | some r2 =>
      match parseCount r2 with
      | none => none
      | some (d, r3) =>
        match eatWS1 r3 with
        | none => none
        | some _ => some (a, d)

/-- A numstat line carrying the binary-file marker (`-` in both count
columns, as git emits for binary files). -/
def isBinaryLine (line : List Char) : Bool :=
  decide (parseNumstatLine line = some (none, none))

/-- Contribution of one line to `addedLines`. -/
def addedContrib (line : List Char) : ℕ :=
  match parseNumstatLine line with
  | some (some a, some _) => a
  | _ => 0

/-- ai-attribution.js / part_000 variant B `addedLines`: sum the added-line
counts of all lines whose two counts are both numeric. -/
def addedLines (out : String) : ℕ :=
  (splitNL out.data).foldl
    (fun acc line =>
      match parseNumstatLine line with
      | some (some a, some _) => acc + a
      | _ => acc)
    0

/-- Contribution of one line to `changedLines`
(each `-` column contributes zero). -/
def changedContrib (line : List Char) : ℕ :=
  match parseNumstatLine line with
  | some (a, d) => a.getD 0 + d.getD 0
  | none => 0

/-- part_000 variant A `changedLines`: sum added+deleted counts, a `-` column
contributing zero, with the `if (!out) return 0` guard. -/
def changedLines (out : String) : ℕ :=
  if out.data.isEmpty then 0
  else
    (splitNL out.data).foldl
      (fun acc line =>
        match parseNumstatLine line with
        | some (a, d) => acc + (a.getD 0 + d.getD 0)
        | none => acc)
      0

/-! ## Aggregation across the commits in range -/

/-- The git query results for one commit of `git rev-list base..head`:
`cid` is the rev-list entry, the other fields are the outputs of the
per-commit `git show`/`git log` calls. -/
structure CommitData where
  cid : String
  meta : CommitMeta
  message : String
  numstat : String

/-- Volume metric of ai-attribution.js / part_000 variant B. -/
def volAdded (c : CommitData) : ℕ := addedLines c.numstat

/-- Volume metric of part_000 variant A. -/
def volChanged (c : CommitData) : ℕ := changedLines c.numstat

/-- One row pushed onto `details`. -/
structure Detail where
  sha : String
  author : String
  volume : ℕ
  label : String
deriving Repr

/-- The row pushed for one commit. -/
def mkDetail (classify : CommitMeta → String → Bool) (vol : CommitData → ℕ)
    (c : CommitData) : Detail :=
  { sha := c.cid
    author := c.meta.authorName ++ " <" ++ c.meta.authorEmail ++ ">"
    volume := vol c
    label := if classify c.meta c.message then "AI" else "Human" }

/-- One iteration of the aggregation loop: add the commit's volume to the
bucket selected by its classification and push its detail row. -/
def aggStep (classify : CommitMeta → String → Bool) (vol : CommitData → ℕ)
    (st : ℕ × ℕ × List Detail) (c : CommitData) : ℕ × ℕ × List Detail :=
  let added := vol c
  let ai := classify c.meta c.message
  (if ai then st.1 + added else st.1,
   if ai then st.2.1 else st.2.1 + added,
   st.2.2 ++ [mkDetail classify vol c])

/-- The aggregation loop over the commits in range:
returns (aiVolume, humanVolume, details). -/
def aggregate (classify : CommitMeta → String → Bool) (vol : CommitData → ℕ)
    (cs : List CommitData) : ℕ × ℕ × List Detail :=
  cs.foldl (aggStep classify vol) (0, 0, [])

/-! ## Extensible pattern file loading -/

/-- Preprocessing shared by all revisions:
`.split('\n').map(l => l.trim()).filter(Boolean)`. -/
def extraPatternLines (content : String) : List (List Char) :=
  ((splitNL content.data).map jsTrim).filter (fun l => !l.isEmpty)

/-- ai-attribution.js pattern loading:
`for (const line of extra) patterns.push(new RegExp(line, 'i'));`
with NO try/catch — a throwing `compile` aborts the whole run
(modelled by propagating the `Except.error`). -/
def loadLoopMain {α : Type} (compile : List Char → Except Unit α) :
    List (List Char) → List α → Except Unit (List α)
  | [], acc => .ok acc
  | l :: ls, acc =>
    match compile l with
    | .error e => .error e
    | .ok r => loadLoopMain compile ls (acc ++ [r])

/-- ai-attribution.js: default patterns extended by the optional pattern file
(raising on the first malformed line). -/
def loadPatternsMain {α : Type} (compile : List Char → Except Unit α)
    (defaults : List α) (content : String) : Except Unit (List α) :=
  loadLoopMain compile (extraPatternLines content) defaults

/-- part_000 (both variants) pattern loading:
`try { aiAuthorPatterns.push(new RegExp(line, 'i')); } catch {}` —
a throwing `compile` only skips that line. -/
def loadLoopP0 {α : Type} (compile : List Char → Except Unit α) :
    List (List Char) → List α → List α
  | [], acc => acc
  | l :: ls, acc =>
    match compile l with
    | .error _ => loadLoopP0 compile ls acc
    | .ok r => loadLoopP0 compile ls (acc ++ [r])

/-- part_000: default patterns extended by the optional pattern file,
skipping malformed lines individually. -/
def loadPatternsP0 {α : Type} (compile : List Char → Except Unit α)
    (defaults : List α) (content : String) : List α :=
  loadLoopP0 compile (extraPatternLines content) defaults

/-- Stand-in for JavaScript `new RegExp(line, 'i')` in concrete examples:
`new RegExp("(")` throws a SyntaxError (unterminated group), any of the
listed well-formed sources compiles. -/
def compileDemo (l : List Char) : Except Unit (List Char) :=
  if l = "(".data then .error () else .ok l

/-! ## Declared-percent resolution with the API refetch (part_000) -/

/-- owner from `GITHUB_REPOSITORY.split('/')` (empty when absent). -/
def ownerOf (repoFull : String) : List Char :=
  (splitBy (fun c => c = '/') repoFull.data).getD 0 []

/-- repo from `GITHUB_REPOSITORY.split('/')` (empty when absent, matching the
falsiness of `undefined`). -/
def repoOf (repoFull : String) : List Char :=
  (splitBy (fun c => c = '/') repoFull.data).getD 1 []

/-- The refetch guard `process.env.GITHUB_TOKEN && owner && repo`
(JavaScript truthiness: non-empty strings). -/
def credsOk (token repoFull : String) : Bool :=
  !token.data.isEmpty && !(ownerOf repoFull).isEmpty && !(repoOf repoFull).isEmpty

/-- part_000 declared-percent resolution: parse the (pre-trimmed) event body;
if that yields nothing and credentials plus repository coordinates are
present, issue one refetch (`prFetch` models `curl` + `JSON.parse` +
`fresh.body || ''`, an `Except.error` being the caught failure that leaves
`declaredPct` null).  The second component counts issued refetches. -/
def resolveDeclared (prBody : List Char) (token repoFull : String)
    (prFetch : Except Unit String) : Option ℤ × ℕ :=
  match parseDeclaredStrict prBody with
  | some n => (some n, 0)
  | none =>
    if credsOk token repoFull then
      match prFetch with
      | .ok freshBody => (parseDeclaredStrict (jsTrim freshBody.data), 1)
      | .error _ => (none, 1)
    else (none, 0)

/-! ## The two pipelines (from aggregation to the `GITHUB_ENV` writes) -/

/-- The report data from which `ATTRIBUTION_MD` and `ATTRIBUTION_SUMMARY` are
rendered (reaching it = reaching report construction). -/
structure Report where
  computedPercent : ℤ
  declaredPercent : ℤ
  finalPercent : ℤ
  aiVolume : ℕ
  humanVolume : ℕ
  details : List Detail

/-- ai-attribution.js fatal diagnostic for a missing/invalid declaration. -/
def declErrMain : String :=
  "Declared AI% is missing or invalid. Provide a single integer 0..100 in the PR body, e.g.:\n**Declared-AI-Percent:** 60"

/-- ai-attribution.js fatal diagnostic for a missing output sink. -/
def envErrMain : String := "GITHUB_ENV is not set; cannot pass data to next step."

/-- part_000 variant A fatal diagnostic for a missing/invalid declaration. -/
def declErrP0 : String :=
  "Declared AI% is missing or invalid. Provide a single integer 0..100 in the PR body, e.g.:\n**Declared-AI-Percent**: 60"

/-- part_000 variant A fatal diagnostic for a missing output sink. -/
def envErrP0 : String := "GITHUB_ENV missing."

/-- ai-attribution.js from the aggregation loop onwards: aggregate volumes,
compute the percentage, parse the trimmed PR body, validate, and (only then,
and only when `GITHUB_ENV` is present) emit the report.  `Except.error`
models the diagnostic followed by `process.exit(1)`, before anything is
appended to the sink. -/
def runMain (cs : List CommitData) (prBodyRaw : String) (envSet : Bool) :
    Except String Report :=
  let agg := aggregate (isAICommitMain defaultPatternTests) volAdded cs
  let computed := computedPct agg.1 agg.2.1
  match parseDeclaredMain (jsTrim prBodyRaw.data) with
  | none => .error declErrMain
  | some d =>
    if d < 0 || 100 < d then .error declErrMain
    else if envSet then
      .ok
        { computedPercent := computed
          declaredPercent := d
          finalPercent := finalPct computed d
          aiVolume := agg.1
          humanVolume := agg.2.1
          details := agg.2.2 }
    else .error envErrMain

/-- part_000 variant A from the aggregation loop onwards; same shape but with
the added+deleted volume metric, the marker variant, the strict parser and
the single API refetch. -/
def runPart0 (cs : List CommitData) (prBodyRaw : String)
    (token repoFull : String) (prFetch : Except Unit String) (envSet : Bool) :
    Except String Report :=
  let agg := aggregate (isAICommitA defaultPatternTests) volChanged cs
  let computed := computedPct agg.1 agg.2.1
  match (resolveDeclared (jsTrim prBodyRaw.data) token repoFull prFetch).1 with
  | none => .error declErrP0
  | some d =>
    if d < 0 || 100 < d then .error declErrP0
    else if envSet then
      .ok
        { computedPercent := computed
          declaredPercent := d
          finalPercent := finalPct computed d
          aiVolume := agg.1
          humanVolume := agg.2.1
          details := agg.2.2 }
    else .error envErrP0

/-! ## Properties of the rounding model -/

theorem rhe_sub_abs (x : ℚ) : |(rhe x : ℚ) - x| ≤ 1 / 2 := by
  have hfl : ((⌊x⌋ : ℤ) : ℚ) ≤ x := Int.floor_le x
  have hfu : x < ((⌊x⌋ : ℤ) : ℚ) + 1 := Int.lt_floor_add_one x
  rw [rhe]
  split_ifs with h1 h2 h3 <;> rw [abs_le] <;> push_cast <;> constructor <;> linarith

theorem fl53_of_nonpos {q : ℚ} (h : q ≤ 0) : fl53 q = 0 := by
  simp [fl53, h]

theorem two_zpow_pos (e : ℤ) : (0 : ℚ) < (2 : ℚ) ^ e :=
  zpow_pos (by norm_num) e

theorem two_zpow_neg53 : (2 : ℚ) ^ (-53 : ℤ) = 1 / 2 ^ 53 := by
  rw [zpow_neg]
  norm_num

theorem fl53_sub_abs {q : ℚ} (hq : 0 < q) :
    |fl53 q - q| ≤ q * (2 : ℚ) ^ (-53 : ℤ) := by
  have h2 : (2 : ℚ) ≠ 0 := by norm_num
  set e := Int.log 2 q with he
  have h2e : (2 : ℚ) ^ e ≤ q := Int.zpow_log_le_self (by norm_num) hq
  set s := q * (2 : ℚ) ^ ((52 : ℤ) - e) with hs
  have hsq : s * (2 : ℚ) ^ (e - 52) = q := by
    rw [hs, mul_assoc, ← zpow_add₀ h2]
    have hz : (52 : ℤ) - e + (e - 52) = 0 := by ring
    rw [hz, zpow_zero, mul_one]
  have hcalc : fl53 q - q = ((rhe s : ℚ) - s) * (2 : ℚ) ^ (e - 52) := by
    rw [fl53, if_neg (not_le.mpr hq), ← he, ← hs, sub_mul, hsq]
  rw [hcalc, abs_mul, abs_of_pos (two_zpow_pos _)]
  calc |(rhe s : ℚ) - s| * (2 : ℚ) ^ (e - 52)
      ≤ (1 / 2) * (2 : ℚ) ^ (e - 52) := by
        exact mul_le_mul_of_nonneg_right (rhe_sub_abs s) (le_of_lt (two_zpow_pos _))
    _ = (2 : ℚ) ^ e * (2 : ℚ) ^ (-53 : ℤ) := by
        rw [← zpow_add₀ h2]
        have h1 : (1 : ℚ) / 2 = (2 : ℚ) ^ (-1 : ℤ) := by norm_num
        rw [h1, ← zpow_add₀ h2]
        congr 1
        omega
    _ ≤ q * (2 : ℚ) ^ (-53 : ℤ) := by
        exact mul_le_mul_of_nonneg_right h2e (le_of_lt (two_zpow_pos _))

theorem fl53_nonneg (q : ℚ) : 0 ≤ fl53 q := by
  rcases le_or_lt q 0 with h | h
  · rw [fl53_of_nonpos h]
  · have habs := fl53_sub_abs h
    rw [abs_le] at habs
    obtain ⟨hlo, hhi⟩ := habs
    have hu : q * (2 : ℚ) ^ (-53 : ℤ) ≤ q * (1 / 2) := by
      apply mul_le_mul_of_nonneg_left _ (le_of_lt h)
      rw [two_zpow_neg53]
      norm_num
    generalize hT : q * (2 : ℚ) ^ (-53 : ℤ) = T at hlo hhi hu
    linarith

/-- Evaluation lemma for `fl53` when the scaled significand rounds down. -/
theorem fl53_eval {q : ℚ} {e f : ℤ}
    (hq1 : (2 : ℚ) ^ e ≤ q) (hq2 : q < (2 : ℚ) ^ (e + 1))
    (hf : ⌊q * (2 : ℚ) ^ ((52 : ℤ) - e)⌋ = f)
    (hfrac : q * (2 : ℚ) ^ ((52 : ℤ) - e) - (f : ℚ) < 1 / 2) :
    fl53 q = (f : ℚ) * (2 : ℚ) ^ (e - 52) := by
  have hq : 0 < q := lt_of_lt_of_le (two_zpow_pos e) hq1
  have hlog : Int.log 2 q = e := by
    have hle : e ≤ Int.log 2 q := (Int.zpow_le_iff_le_log (by norm_num) hq).mp hq1
    have hlt : Int.log 2 q < e + 1 := (Int.lt_zpow_iff_log_lt (by norm_num) hq).mp hq2
    omega
  rw [fl53, if_neg (not_le.mpr hq), hlog, rhe, hf, if_pos hfrac]

theorem round_diff_le_one {x y : ℚ} (h : |x - y| ≤ 1 / 4) :
    |round x - round y| ≤ 1 := by
  rw [abs_le] at h
  obtain ⟨h1, h2⟩ := h
  rw [round_eq, round_eq]
  have ha : ⌊x + 1 / 2⌋ ≤ ⌊y + 1 / 2⌋ + 1 := by
    have hxy : x + 1 / 2 ≤ y + 1 / 2 + 1 := by linarith
    have hm := Int.floor_mono hxy
    rwa [Int.floor_add_one] at hm
  have hb : ⌊y + 1 / 2⌋ ≤ ⌊x + 1 / 2⌋ + 1 := by
    have hyx : y + 1 / 2 ≤ x + 1 / 2 + 1 := by linarith
    have hm := Int.floor_mono hyx
    rwa [Int.floor_add_one] at hm
  rw [abs_le]
  omega

/-- The two correctly-rounded double operations keep the rounded percentage in
range and within 1 of the exact rounding. -/
theorem doubleRound_bound {x0 : ℚ} (hx0pos : 0 < x0) (hx0le : x0 ≤ 1) :
    0 ≤ round (fl53 (fl53 x0 * 100)) ∧ round (fl53 (fl53 x0 * 100)) ≤ 100 ∧
      |round (fl53 (fl53 x0 * 100)) - round (100 * x0)| ≤ 1 := by
  have hU : (2 : ℚ) ^ (-53 : ℤ) = 1 / 2 ^ 53 := two_zpow_neg53
  have h1 := fl53_sub_abs hx0pos
  rw [abs_le] at h1
  obtain ⟨h1lo, h1hi⟩ := h1
  set x1 := fl53 x0 with hx1def
  have hT2 : x0 * (2 : ℚ) ^ (-53 : ℤ) ≤ x0 * (1 / 2) := by
    apply mul_le_mul_of_nonneg_left _ hx0pos.le
    rw [hU]
    norm_num
  have hTle : x0 * (2 : ℚ) ^ (-53 : ℤ) ≤ 1 / 2 ^ 53 := by
    rw [hU]
    calc x0 * (1 / 2 ^ 53) ≤ 1 * (1 / 2 ^ 53) :=
          mul_le_mul_of_nonneg_right hx0le (by norm_num)
      _ = 1 / 2 ^ 53 := one_mul _
  generalize hT : x0 * (2 : ℚ) ^ (-53 : ℤ) = T at h1lo h1hi hT2 hTle
  have hx1pos : 0 < x1 := by linarith
  have hx1le : x1 ≤ 1 + 1 / 2 ^ 53 := by linarith
  set y0 := x1 * 100 with hy0def
  have hy0pos : 0 < y0 := by rw [hy0def]; positivity
  have h2 := fl53_sub_abs hy0pos
  rw [abs_le] at h2
  obtain ⟨h2lo, h2hi⟩ := h2
  set y1 := fl53 y0 with hy1def
  have hy0le : y0 ≤ 100 * (1 + 1 / 2 ^ 53) := by rw [hy0def]; linarith
  have hSle : y0 * (2 : ℚ) ^ (-53 : ℤ) ≤ 100 * (1 + 1 / 2 ^ 53) * (1 / 2 ^ 53) := by
    rw [hU]
    exact mul_le_mul_of_nonneg_right hy0le (by norm_num)
  have hSnn : 0 ≤ y0 * (2 : ℚ) ^ (-53 : ℤ) := by positivity
  generalize hS : y0 * (2 : ℚ) ^ (-53 : ℤ) = S at h2lo h2hi hSle hSnn
  have hy0w : |y0 - 100 * x0| ≤ 100 * T := by
    rw [hy0def]
    have he : x1 * 100 - 100 * x0 = 100 * (x1 - x0) := by ring
    rw [he, abs_mul, abs_of_pos (show (0 : ℚ) < 100 by norm_num)]
    have habs : |x1 - x0| ≤ T := abs_le.mpr ⟨h1lo, h1hi⟩
    have hmul := mul_le_mul_of_nonneg_left habs (show (0 : ℚ) ≤ 100 by norm_num)
    linarith
  have hdiff : |y1 - 100 * x0| ≤ 1 / 4 := by
    have h3 : |y1 - y0| ≤ S := abs_le.mpr ⟨h2lo, h2hi⟩
    have htri := abs_sub_le y1 y0 (100 * x0)
    have hnum : 100 * (1 + (1 : ℚ) / 2 ^ 53) * (1 / 2 ^ 53) + 100 * (1 / 2 ^ 53) ≤ 1 / 4 := by
      norm_num
    have h100T : 100 * T ≤ 100 * (1 / 2 ^ 53) := by linarith
    linarith
  have hy1nn : 0 ≤ y1 := fl53_nonneg y0
  have hy1lt : y1 < 100 + 1 / 2 := by
    have hnum2 : 100 * (1 + (1 : ℚ) / 2 ^ 53) + 100 * (1 + (1 : ℚ) / 2 ^ 53) * (1 / 2 ^ 53) <
        100 + 1 / 2 := by norm_num
    linarith
  refine ⟨?_, ?_, ?_⟩
  · rw [round_eq]
    apply Int.le_floor.mpr
    push_cast
    linarith
  · rw [round_eq]
    have hfl : ⌊y1 + 1 / 2⌋ < 101 := by
      apply Int.floor_lt.mpr
      push_cast
      linarith
    omega
  · exact round_diff_le_one hdiff

/-- Main correctness statement for `computedPct` against the specification
formula: zero on an empty diff, always within `[0, 100]`, and within one
percentage point of the exact rounding (exact equality can fail, see the
counterexample at 23/40). -/
theorem computedPct_vs_spec (a h : ℕ) :
    (a + h = 0 → computedPct a h = 0) ∧
    (a + h ≠ 0 → 0 ≤ computedPct a h ∧ computedPct a h ≤ 100 ∧
      |computedPct a h - specComputedPct a h| ≤ 1) := by
  constructor
  · intro h0
    simp [computedPct, h0]
  · intro hne
    have htpos : 0 < a + h := Nat.pos_of_ne_zero hne
    have htq : (0 : ℚ) < (a : ℚ) + (h : ℚ) := by exact_mod_cast htpos
    rw [computedPct, specComputedPct, if_neg hne, if_neg hne]
    rcases Nat.eq_zero_or_pos a with ha0 | hapos
    · subst ha0
      have hz : ((0 : ℕ) : ℚ) = 0 := Nat.cast_zero
      rw [hz, zero_div, mul_zero, zero_div, fl53_of_nonpos le_rfl, zero_mul,
        fl53_of_nonpos le_rfl, round_zero]
      norm_num
    · have hapq : (0 : ℚ) < (a : ℚ) := by exact_mod_cast hapos
      have hx0pos : 0 < (a : ℚ) / ((a : ℚ) + (h : ℚ)) := div_pos hapq htq
      have hx0le : (a : ℚ) / ((a : ℚ) + (h : ℚ)) ≤ 1 := by
        rw [div_le_one htq]
        have hh : (0 : ℚ) ≤ (h : ℚ) := Nat.cast_nonneg h
        linarith
      have hb := doubleRound_bound hx0pos hx0le
      rw [mul_div_assoc]
      exact hb

/-- Step 1 of the 23/40 evaluation: the double nearest 23/40. -/
theorem fl53_step1 :
    fl53 ((23 : ℚ) / 40) = (5179139571476070 : ℚ) * (2 : ℚ) ^ ((-1 : ℤ) - 52) := by
  have h := fl53_eval (q := (23 : ℚ) / 40) (e := -1) (f := 5179139571476070)
  apply h
  · norm_num
  · norm_num
  · rw [Int.floor_eq_iff]
    constructor
    · norm_num
    · norm_num
  · norm_num

/-- Step 2 of the 23/40 evaluation: the double nearest the product with 100. -/
theorem fl53_step2 :
    fl53 ((5179139571476070 : ℚ) * (2 : ℚ) ^ ((-1 : ℤ) - 52) * 100) =
      (8092405580431359 : ℚ) * (2 : ℚ) ^ ((5 : ℤ) - 52) := by
  have harg : (5179139571476070 : ℚ) * (2 : ℚ) ^ ((-1 : ℤ) - 52) * 100 =
      517913957147607000 / 2 ^ 53 := by
    rw [show ((-1 : ℤ) - 52) = -53 by norm_num, two_zpow_neg53]
    norm_num
  rw [harg]
  have h := fl53_eval (q := (517913957147607000 : ℚ) / 2 ^ 53) (e := 5)
    (f := 8092405580431359)
  apply h
  · norm_num
  · norm_num
  · rw [Int.floor_eq_iff]
    constructor
    · norm_num
    · norm_num
  · norm_num

/-- On the volumes (23, 17) the script computes 57. -/
theorem computedPct_23_17 : computedPct 23 17 = 57 := by
  have hcast : ((23 : ℕ) : ℚ) / (((23 : ℕ) : ℚ) + ((17 : ℕ) : ℚ)) = (23 : ℚ) / 40 := by
    norm_num
  rw [computedPct, if_neg (by norm_num), hcast, fl53_step1, fl53_step2]
  rw [round_eq]
  have hval : (8092405580431359 : ℚ) * (2 : ℚ) ^ ((5 : ℤ) - 52) + 1 / 2 =
      16325548649218046 / 281474976710656 := by
    rw [show ((5 : ℤ) - 52) = -47 by norm_num, zpow_neg]
    norm_num
  rw [hval, Int.floor_eq_iff]
  constructor
  · norm_num
  · norm_num

/-- The specification formula rounds 57.5 up to 58 at the same input. -/
theorem specComputedPct_23_17 : specComputedPct 23 17 = 58 := by
  have hcast : (100 * ((23 : ℕ) : ℚ)) / (((23 : ℕ) : ℚ) + ((17 : ℕ) : ℚ)) =
      (115 : ℚ) / 2 := by norm_num
  rw [specComputedPct, if_neg (by norm_num), hcast, round_eq]
  rw [Int.floor_eq_iff]
  constructor
  · norm_num
  · norm_num

/-! ## Bounds on the digit captures -/

theorem digitVal_le_nine {c : Char} (h : isDig c = true) : digitVal c ≤ 9 := by
  simp only [isDig, Bool.and_eq_true, decide_eq_true_eq] at h
  simp only [digitVal]
  omega

theorem takeDigits_lt (k : ℕ) :
    ∀ (acc : ℕ) (cs : List Char), (takeDigits k acc cs).1 < (acc + 1) * 10 ^ k := by
  induction k with
  | zero =>
    intro acc cs
    simp [takeDigits]
  | succ k ih =>
    intro acc cs
    cases cs with
    | nil =>
      have hp : 0 < (10 : ℕ) ^ (k + 1) := pow_pos (by norm_num) _
      simp only [takeDigits]
      calc acc < acc + 1 := Nat.lt_succ_self acc
        _ ≤ (acc + 1) * 10 ^ (k + 1) := Nat.le_mul_of_pos_right _ hp
    | cons c cs =>
      rw [takeDigits]
      split_ifs with hd
      · have h9 := digitVal_le_nine hd
        calc (takeDigits k (10 * acc + digitVal c) cs).1
            < (10 * acc + digitVal c + 1) * 10 ^ k := ih _ _
          _ ≤ ((acc + 1) * 10) * 10 ^ k := Nat.mul_le_mul_right _ (by omega)
          _ = (acc + 1) * 10 ^ (k + 1) := by ring
      · have hp : 0 < (10 : ℕ) ^ (k + 1) := pow_pos (by norm_num) _
        calc ((acc, c :: cs) : ℕ × List Char).1 < acc + 1 := Nat.lt_succ_self acc
          _ ≤ (acc + 1) * 10 ^ (k + 1) := Nat.le_mul_of_pos_right _ hp

theorem eatDigits13_le {cs : List Char} {v : ℕ} {r : List Char}
    (h : eatDigits13 cs = some (v, r)) : v ≤ 999 := by
  cases cs with
  | nil => simp [eatDigits13] at h
  | cons c cs =>
    rw [eatDigits13] at h
    split_ifs at h with hd
    · have h9 := digitVal_le_nine hd
      have hb := takeDigits_lt 2 (digitVal c) cs
      have hv : (takeDigits 2 (digitVal c) cs).1 = v := by
        injection h with h1
        rw [h1]
      have hpow : (10 : ℕ) ^ 2 = 100 := by norm_num
      rw [hpow] at hb
      omega

theorem searchOpt_some {f : List Char → Option ℕ} :
    ∀ {cs : List Char} {v : ℕ}, searchOpt f cs = some v → ∃ sfx, f sfx = some v := by
  intro cs
  induction cs with
  | nil =>
    intro v h
    exact ⟨[], h⟩
  | cons c cs ih =>
    intro v h
    simp only [searchOpt] at h
    split at h
    · rename_i w heq
      exact ⟨c :: cs, by rw [heq, h]⟩
    · exact ih h

theorem matchMainAt_le {cs : List Char} {v : ℕ} (h : matchMainAt cs = some v) :
    v ≤ 999 := by
  unfold matchMainAt at h
  split at h
  · simp at h
  · split at h
    · simp at h
    · rename_i r v2 r2 heq
      injection h with h1
      rw [← h1]
      exact eatDigits13_le heq

theorem matchEstAt_le {cs : List Char} {v : ℕ} (h : matchEstAt cs = some v) :
    v ≤ 999 := by
  unfold matchEstAt at h
  split at h
  · simp at h
  · split at h
    · simp at h
    · split_ifs at h
      · split at h
        · simp at h
        · rename_i heq
          injection h with h1
          rw [← h1]
          exact eatDigits13_le heq

theorem matchColonDigits_le {cs : List Char} {v : ℕ}
    (h : matchColonDigits cs = some v) : v ≤ 999 := by
  unfold matchColonDigits at h
  split at h
  · split at h
    · rename_i heq
      injection h with h1
      rw [← h1]
      exact eatDigits13_le heq
    · simp at h
  · simp at h

theorem matchStrictAt_le {cs : List Char} {v : ℕ} (h : matchStrictAt cs = some v) :
    v ≤ 999 := by
  unfold matchStrictAt at h
  split at h
  · simp at h
  · split at h
    · simp at h
    · split at h
      · simp at h
      · exact matchColonDigits_le h

theorem matchTolAt_le {cs : List Char} {v : ℕ} (h : matchTolAt cs = some v) :
    v ≤ 999 := by
  have hcore : ∀ {ds : List Char} {w : ℕ}, matchTolCore ds = some w → w ≤ 999 := by
    intro ds w hw
    unfold matchTolCore at hw
    split at hw
    · simp at hw
    · unfold matchTolTail at hw
      split at hw
      · split at hw
        · rename_i heq
          injection hw with h1
          rw [← h1]
          exact matchColonDigits_le heq
        · exact matchColonDigits_le hw
      · exact matchColonDigits_le hw
  unfold matchTolAt at h
  split at h
  · split at h
    · rename_i heq
      injection h with h1
      rw [← h1]
      exact hcore heq
    · exact hcore h
  · exact hcore h

theorem parseDeclaredMain_range {body : List Char} {n : ℤ}
    (h : parseDeclaredMain body = some n) : 0 ≤ n ∧ n ≤ 999 := by
  unfold parseDeclaredMain at h
  split at h
  · rename_i v heq
    obtain ⟨sfx, hs⟩ := searchOpt_some heq
    have hb := matchMainAt_le hs
    injection h with h1
    subst h1
    constructor
    · omega
    · omega
  · split at h
    · rename_i v heq
      obtain ⟨sfx, hs⟩ := searchOpt_some heq
      have hb := matchEstAt_le hs
      injection h with h1
      subst h1
      constructor
      · omega
      · omega
    · simp at h

theorem parseDeclaredStrict_range {body : List Char} {n : ℤ}
    (h : parseDeclaredStrict body = some n) : 0 ≤ n ∧ n ≤ 999 := by
  unfold parseDeclaredStrict at h
  split_ifs at h
  split at h
  · rename_i v heq
    obtain ⟨sfx, hs⟩ := searchOpt_some heq
    have hb := matchStrictAt_le hs
    injection h with h1
    subst h1
    constructor
    · omega
    · omega
  · split at h
    · rename_i v heq
      obtain ⟨sfx, hs⟩ := searchOpt_some heq
      have hb := matchEstAt_le hs
      injection h with h1
      subst h1
      constructor
      · omega
      · omega
    · simp at h

theorem parseDeclaredTol_range {body : List Char} {n : ℤ}
    (h : parseDeclaredTol body = some n) : 0 ≤ n ∧ n ≤ 999 := by
  unfold parseDeclaredTol at h
  split_ifs at h
  split at h
  · rename_i v heq
    obtain ⟨sfx, hs⟩ := searchOpt_some heq
    have hb := matchTolAt_le hs
    injection h with h1
    subst h1
    constructor
    · omega
    · omega
  · split at h
    · rename_i v heq
      obtain ⟨sfx, hs⟩ := searchOpt_some heq
      have hb := matchEstAt_le hs
      injection h with h1
      subst h1
      constructor
      · omega
      · omega
    · simp at h

/-! ## Validation characterisation -/

theorem declaredInvalid_iff {d : Option ℤ} (hbnd : ∀ n, d = some n → 0 ≤ n) :
    declaredInvalid d = true ↔ d = none ∨ ∃ n, d = some n ∧ 100 < n := by
  cases d with
  | none => simp [declaredInvalid]
  | some n =>
    have h0 := hbnd n rfl
    simp only [declaredInvalid, Bool.or_eq_true, decide_eq_true_eq]
    constructor
    · intro h
      right
      exact ⟨n, rfl, by omega⟩
    · rintro (h | ⟨m, hm, hlt⟩)
      · simp at h
      · injection hm with hm
        omega

/-! ## Aggregation invariants -/

theorem foldl_aggStep (classify : CommitMeta → String → Bool)
    (vol : CommitData → ℕ) :
    ∀ (cs : List CommitData) (x y : ℕ) (ds : List Detail),
      cs.foldl (aggStep classify vol) (x, y, ds) =
        (x + ((cs.filter fun c => classify c.meta c.message).map vol).sum,
         y + ((cs.filter fun c => !(classify c.meta c.message)).map vol).sum,
         ds ++ cs.map (mkDetail classify vol)) := by
  intro cs
  induction cs with
  | nil =>
    intro x y ds
    simp
  | cons c cs ih =>
    intro x y ds
    rw [List.foldl_cons, aggStep, ih]
    cases hcl : classify c.meta c.message with
    | true =>
      simp [hcl, List.filter_cons, Prod.ext_iff]
      omega
    | false =>
      simp [hcl, List.filter_cons, Prod.ext_iff]
      omega

theorem aggregate_eq (classify : CommitMeta → String → Bool)
    (vol : CommitData → ℕ) (cs : List CommitData) :
    aggregate classify vol cs =
      (((cs.filter fun c => classify c.meta c.message).map vol).sum,
       ((cs.filter fun c => !(classify c.meta c.message)).map vol).sum,
       cs.map (mkDetail classify vol)) := by
  rw [aggregate, foldl_aggStep]
  simp

theorem sum_filter_split (p : CommitData → Bool) (vol : CommitData → ℕ) :
    ∀ cs : List CommitData,
      ((cs.filter p).map vol).sum + ((cs.filter fun c => !p c).map vol).sum =
        (cs.map vol).sum := by
  intro cs
  induction cs with
  | nil => simp
  | cons c cs ih =>
    cases hp : p c with
    | true =>
      simp [List.filter_cons, hp]
      omega
    | false =>
      simp [List.filter_cons, hp]
      omega

/-! ## Volume extractor lemmas -/

theorem foldl_add_eq (g : List Char → ℕ) :
    ∀ (ls : List (List Char)) (n : ℕ),
      ls.foldl (fun acc l => acc + g l) n = n + (ls.map g).sum := by
  intro ls
  induction ls with
  | nil => intro n; simp
  | cons l ls ih =>
    intro n
    rw [List.foldl_cons, ih]
    simp only [List.map_cons, List.sum_cons]
    omega

theorem addedLines_eq_sum (out : String) :
    addedLines out = ((splitNL out.data).map addedContrib).sum := by
  have hfun : (fun (acc : ℕ) (line : List Char) =>
      match parseNumstatLine line with
      | some (some a, some _) => acc + a
      | _ => acc) = fun acc line => acc + addedContrib line := by
    funext acc line
    rcases hp : parseNumstatLine line with _ | ⟨_ | a, _ | d⟩ <;>
      simp [addedContrib, hp]
  rw [addedLines, hfun, foldl_add_eq]
  simp

theorem changedLines_eq_sum (out : String) :
    changedLines out = ((splitNL out.data).map changedContrib).sum := by
  have hfun : (fun (acc : ℕ) (line : List Char) =>
      match parseNumstatLine line with
      | some (a, d) => acc + (a.getD 0 + d.getD 0)
      | none => acc) = fun acc line => acc + changedContrib line := by
    funext acc line
    rcases hp : parseNumstatLine line with _ | ⟨a, d⟩ <;>
      simp [changedContrib, hp]
  rw [changedLines]
  split_ifs with he
  · have hnil : out.data = [] := by
      cases hd : out.data with
      | nil => rfl
      | cons c cs => rw [hd] at he; simp [List.isEmpty] at he
    rw [hnil]
    rfl
  · rw [hfun, foldl_add_eq]
    simp

theorem binaryLine_zero {line : List Char}
    (h : parseNumstatLine line = some (none, none)) :
    addedContrib line = 0 ∧ changedContrib line = 0 := by
  simp [addedContrib, changedContrib, h]

/-! ## Pattern-file loader lemmas -/

theorem loadLoopP0_eq {α : Type} (compile : List Char → Except Unit α) :
    ∀ (ls : List (List Char)) (acc : List α),
      loadLoopP0 compile ls acc =
        acc ++ ls.filterMap (fun l => (compile l).toOption) := by
  intro ls
  induction ls with
  | nil => intro acc; simp [loadLoopP0]
  | cons l ls ih =>
    intro acc
    rw [loadLoopP0]
    cases hc : compile l with
    | error e => simp [hc, ih, Except.toOption]
    | ok r => simp [hc, ih, Except.toOption]

theorem loadLoopMain_ok {α : Type} (compile : List Char → Except Unit α) :
    ∀ (ls : List (List Char)) (acc : List α),
      (∀ l ∈ ls, ((compile l).toOption).isSome = true) →
      loadLoopMain compile ls acc =
        .ok (acc ++ ls.filterMap (fun l => (compile l).toOption)) := by
  intro ls
  induction ls with
  | nil => intro acc _; simp [loadLoopMain]
  | cons l ls ih =>
    intro acc hall
    have hl := hall l (List.mem_cons_self l ls)
    rw [loadLoopMain]
    cases hc : compile l with
    | error e => rw [hc] at hl; simp [Except.toOption] at hl
    | ok r =>
      have hrest : ∀ m ∈ ls, ((compile m).toOption).isSome = true := by
        intro m hm
        exact hall m (List.mem_cons_of_mem l hm)
      simp [hc, ih (acc ++ [r]) hrest, Except.toOption]

/-! ## Refetch resolution lemmas -/

theorem resolveDeclared_count (prBody : List Char) (token repoFull : String)
    (pf : Except Unit String) :
    (resolveDeclared prBody token repoFull pf).2 ≤ 1 ∧
    ((resolveDeclared prBody token repoFull pf).2 = 1 ↔
      parseDeclaredStrict prBody = none ∧ credsOk token repoFull = true) := by
  unfold resolveDeclared
  cases hp : parseDeclaredStrict prBody with
  | some n => simp [hp]
  | none =>
    cases hcr : credsOk token repoFull with
    | true =>
      cases pf with
      | error e => simp [hcr]
      | ok b => simp [hcr]
    | false => simp [hcr]

theorem resolveDeclared_fetch_error (prBody : List Char) (token repoFull : String)
    (hnone : parseDeclaredStrict prBody = none)
    (hcr : credsOk token repoFull = true) :
    (resolveDeclared prBody token repoFull (.error ())).1 = none := by
  unfold resolveDeclared
  rw [hnone]
  simp [hcr]

theorem resolveDeclared_fst_cases (prBody : List Char) (token repoFull : String)
    (pf : Except Unit String) :
    (resolveDeclared prBody token repoFull pf).1 = none ∨
    ∃ body, (resolveDeclared prBody token repoFull pf).1 = parseDeclaredStrict body := by
  unfold resolveDeclared
  cases hp : parseDeclaredStrict prBody with
  | some n => exact Or.inr ⟨prBody, by simp [hp]⟩
  | none =>
    cases hcr : credsOk token repoFull with
    | false => simp
    | true =>
      cases pf with
      | error e => simp
      | ok b => exact Or.inr ⟨jsTrim b.data, by simp⟩

theorem resolveDeclared_fst_range {prBody : List Char} {token repoFull : String}
    {pf : Except Unit String} {n : ℤ}
    (h : (resolveDeclared prBody token repoFull pf).1 = some n) : 0 ≤ n ∧ n ≤ 999 := by
  rcases resolveDeclared_fst_cases prBody token repoFull pf with hc | ⟨body, hc⟩
  · rw [hc] at h
    simp at h
  · rw [hc] at h
    exact parseDeclaredStrict_range h

/-! ## Pipeline lemmas -/

theorem runMain_ok_spec {cs : List CommitData} {body : String} {envSet : Bool}
    {r : Report} (h : runMain cs body envSet = .ok r) :
    r.finalPercent = max r.computedPercent r.declaredPercent ∧
    0 ≤ r.declaredPercent ∧ r.declaredPercent ≤ 100 ∧
    declaredInvalid (parseDeclaredMain (jsTrim body.data)) = false := by
  unfold runMain at h
  split at h
  · simp at h
  · rename_i d heq
    split_ifs at h with hrange henv
    simp only [Bool.or_eq_true, decide_eq_true_eq, not_or] at hrange
    injection h with h1
    subst h1
    refine ⟨rfl, ?_, ?_, ?_⟩
    · show (0 : ℤ) ≤ d
      omega
    · show d ≤ 100
      omega
    · rw [heq]
      simp only [declaredInvalid, Bool.or_eq_false_iff, decide_eq_false_iff_not]
      omega

theorem runMain_invalid_error {cs : List CommitData} {body : String} {envSet : Bool}
    (h : declaredInvalid (parseDeclaredMain (jsTrim body.data)) = true) :
    runMain cs body envSet = .error declErrMain := by
  unfold runMain
  cases hp : parseDeclaredMain (jsTrim body.data) with
  | none => rfl
  | some d =>
    rw [hp] at h
    simp only [declaredInvalid, Bool.or_eq_true, decide_eq_true_eq] at h
    have hcond : (d < 0 || 100 < d) = true := by
      rcases h with h | h <;> simp [h]
    simp [hcond]

theorem runPart0_ok_spec {cs : List CommitData} {body token repoFull : String}
    {pf : Except Unit String} {envSet : Bool} {r : Report}
    (h : runPart0 cs body token repoFull pf envSet = .ok r) :
    r.finalPercent = max r.computedPercent r.declaredPercent ∧
    0 ≤ r.declaredPercent ∧ r.declaredPercent ≤ 100 ∧
    declaredInvalid (resolveDeclared (jsTrim body.data) token repoFull pf).1 = false := by
  unfold runPart0 at h
  split at h
  · simp at h
  · rename_i d heq
    split_ifs at h with hrange henv
    simp only [Bool.or_eq_true, decide_eq_true_eq, not_or] at hrange
    injection h with h1
    subst h1
    refine ⟨rfl, ?_, ?_, ?_⟩
    · show (0 : ℤ) ≤ d
      omega
    · show d ≤ 100
      omega
    · rw [heq]
      simp only [declaredInvalid, Bool.or_eq_false_iff, decide_eq_false_iff_not]
      omega

theorem runPart0_invalid_error {cs : List CommitData} {body token repoFull : String}
    {pf : Except Unit String} {envSet : Bool}
    (h : declaredInvalid (resolveDeclared (jsTrim body.data) token repoFull pf).1 = true) :
    runPart0 cs body token repoFull pf envSet = .error declErrP0 := by
  unfold runPart0
  cases hp : (resolveDeclared (jsTrim body.data) token repoFull pf).1 with
  | none => rfl
  | some d =>
    rw [hp] at h
    simp only [declaredInvalid, Bool.or_eq_true, decide_eq_true_eq] at h
    have hcond : (d < 0 || 100 < d) = true := by
      rcases h with h | h <;> simp [h]
    simp [hcond]

theorem runPart0_error_msgs {cs : List CommitData} {body token repoFull : String}
    {pf : Except Unit String} {envSet : Bool} {msg : String}
    (h : runPart0 cs body token repoFull pf envSet = .error msg) :
    msg = declErrP0 ∨ msg = envErrP0 := by
  unfold runPart0 at h
  split at h
  · injection h with h1
    exact Or.inl h1.symm
  · split_ifs at h
    · injection h with h1
      exact Or.inl h1.symm
    · injection h with h1
      exact Or.inr h1.symm


/-! ## Demonstration data -/

/-- A human author whose identity matches none of the default AI patterns. -/
def janeMeta : CommitMeta :=
  { sha := "1234567", authorName := "Jane Doe", authorEmail := "jane@example.com",
    committerName := "Jane Doe", committerEmail := "jane@example.com" }

/-- The report produced by `runMain` on an empty commit range and the body
`Declared-AI-Percent: 42`. -/
def demoReportMain : Report :=
  { computedPercent := 0, declaredPercent := 42, finalPercent := 42,
    aiVolume := 0, humanVolume := 0, details := [] }

/-- The report produced by `runPart0` on an empty commit range and the body
`**Declared-AI-Percent**: 30`. -/
def demoReportP0 : Report :=
  { computedPercent := 0, declaredPercent := 30, finalPercent := 30,
    aiVolume := 0, humanVolume := 0, details := [] }

/-! ## Claim theorems -/

/-- C1 (amended): for all non-negative volumes `a`, `h`, the computed
percentage is 0 when `a + h = 0`; when `a + h > 0` it lies in `[0, 100]` and is
within one percentage point of the specification value
`round(100·a/(a+h))`.  Exact equality with the specification formula fails in
the script's double-precision arithmetic (see `C1_counterexample`). -/
theorem C1_computedPct_spec (a h : ℕ) :
    (a + h = 0 → computedPct a h = 0) ∧
    (a + h ≠ 0 → 0 ≤ computedPct a h ∧ computedPct a h ≤ 100 ∧
      |computedPct a h - specComputedPct a h| ≤ 1) :=
  computedPct_vs_spec a h

/-- C1 witness: concrete instances of both branches of `C1_computedPct_spec`
(the empty diff and the volumes (0, 1)). -/
theorem C1_witness :
    ((0 + 0 = 0) ∧ computedPct 0 0 = 0) ∧
    ((0 + 1 ≠ 0) ∧ (0 ≤ computedPct 0 1 ∧ computedPct 0 1 ≤ 100 ∧
      |computedPct 0 1 - specComputedPct 0 1| ≤ 1)) :=
  ⟨⟨rfl, (C1_computedPct_spec 0 0).1 rfl⟩,
   ⟨by decide, (C1_computedPct_spec 0 1).2 (by decide)⟩⟩

/-- C1 counterexample: at aiVolume = 23, humanVolume = 17 the script computes
`Math.round((23/40)*100)` on doubles, where `(23/40)*100` evaluates to
57.49999999999999289…, so the result is 57 while exact rounding of
100·23/40 = 57.5 gives 58. -/
theorem C1_counterexample :
    computedPct 23 17 = 57 ∧ specComputedPct 23 17 = 58 ∧
    computedPct 23 17 ≠ specComputedPct 23 17 :=
  ⟨computedPct_23_17, specComputedPct_23_17, by
    rw [computedPct_23_17, specComputedPct_23_17]
    decide⟩

/-- C2: every run (of either script revision) that reaches report
construction produces `finalPercent = max(computedPercent, declaredPercent)`,
and the declared percentage in the report is a validated value in `[0, 100]`. -/
theorem C2_final_is_max :
    (∀ (cs : List CommitData) (body : String) (envSet : Bool) (r : Report),
      runMain cs body envSet = .ok r →
      r.finalPercent = max r.computedPercent r.declaredPercent ∧
      0 ≤ r.declaredPercent ∧ r.declaredPercent ≤ 100) ∧
    (∀ (cs : List CommitData) (body token repoFull : String)
      (pf : Except Unit String) (envSet : Bool) (r : Report),
      runPart0 cs body token repoFull pf envSet = .ok r →
      r.finalPercent = max r.computedPercent r.declaredPercent ∧
      0 ≤ r.declaredPercent ∧ r.declaredPercent ≤ 100) :=
  ⟨fun _ _ _ _ h =>
    ⟨(runMain_ok_spec h).1, (runMain_ok_spec h).2.1, (runMain_ok_spec h).2.2.1⟩,
   fun _ _ _ _ _ _ _ h =>
    ⟨(runPart0_ok_spec h).1, (runPart0_ok_spec h).2.1, (runPart0_ok_spec h).2.2.1⟩⟩

/-- C2 witness: concrete runs of both pipelines reaching report
construction. -/
theorem C2_witness :
    (runMain [] "Declared-AI-Percent: 42" true = .ok demoReportMain ∧
      demoReportMain.finalPercent =
        max demoReportMain.computedPercent demoReportMain.declaredPercent ∧
      0 ≤ demoReportMain.declaredPercent ∧ demoReportMain.declaredPercent ≤ 100) ∧
    (runPart0 [] "**Declared-AI-Percent**: 30" "" "" (.error ()) true = .ok demoReportP0 ∧
      demoReportP0.finalPercent =
        max demoReportP0.computedPercent demoReportP0.declaredPercent ∧
      0 ≤ demoReportP0.declaredPercent ∧ demoReportP0.declaredPercent ≤ 100) :=
  ⟨⟨rfl, C2_final_is_max.1 [] "Declared-AI-Percent: 42" true demoReportMain rfl⟩,
   ⟨rfl, C2_final_is_max.2 [] "**Declared-AI-Percent**: 30" "" "" (.error ()) true
      demoReportP0 rfl⟩⟩

/-- C3: whenever the declared percentage is missing after the parse attempts
or lies outside `[0, 100]`, both script revisions stop with the declared-error
diagnostic and a non-zero exit (`Except.error`), writing nothing to the
`GITHUB_ENV` sink; conversely a report (whose data is what gets written) is
produced only when validation succeeded. -/
theorem C3_validation_gates_output :
    (∀ (cs : List CommitData) (body : String) (envSet : Bool),
      declaredInvalid (parseDeclaredMain (jsTrim body.data)) = true →
      runMain cs body envSet = .error declErrMain) ∧
    (∀ (cs : List CommitData) (body : String) (envSet : Bool) (r : Report),
      runMain cs body envSet = .ok r →
      declaredInvalid (parseDeclaredMain (jsTrim body.data)) = false) ∧
    (∀ (cs : List CommitData) (body token repoFull : String)
      (pf : Except Unit String) (envSet : Bool),
      declaredInvalid (resolveDeclared (jsTrim body.data) token repoFull pf).1 = true →
      runPart0 cs body token repoFull pf envSet = .error declErrP0) ∧
    (∀ (cs : List CommitData) (body token repoFull : String)
      (pf : Except Unit String) (envSet : Bool) (r : Report),
      runPart0 cs body token repoFull pf envSet = .ok r →
      declaredInvalid (resolveDeclared (jsTrim body.data) token repoFull pf).1 = false) :=
  ⟨fun _ _ _ h => runMain_invalid_error h,
   fun _ _ _ _ h => (runMain_ok_spec h).2.2.2,
   fun _ _ _ _ _ _ h => runPart0_invalid_error h,
   fun _ _ _ _ _ _ _ h => (runPart0_ok_spec h).2.2.2⟩

/-- C3 witness: a body without a declaration aborts both pipelines with the
declared-error diagnostic; a validated run produces a report. -/
theorem C3_witness :
    (declaredInvalid (parseDeclaredMain (jsTrim ("no declaration" : String).data)) = true ∧
      runMain [] "no declaration" true = .error declErrMain) ∧
    (declaredInvalid (resolveDeclared (jsTrim ("no declaration" : String).data) "" ""
        (.error ())).1 = true ∧
      runPart0 [] "no declaration" "" "" (.error ()) true = .error declErrP0) ∧
    (runMain [] "Declared-AI-Percent: 42" true = .ok demoReportMain ∧
      declaredInvalid (parseDeclaredMain
        (jsTrim ("Declared-AI-Percent: 42" : String).data)) = false) :=
  ⟨⟨by decide, C3_validation_gates_output.1 [] "no declaration" true (by decide)⟩,
   ⟨by decide, C3_validation_gates_output.2.2.1 [] "no declaration" "" "" (.error ()) true
      (by decide)⟩,
   ⟨rfl, C3_validation_gates_output.2.1 [] "Declared-AI-Percent: 42" true
      demoReportMain rfl⟩⟩

/-- C4 counterexample to the claim as stated: the ai-attribution.js regex is
NOT tolerant of bold markup (it finds nothing in
`**Declared-AI-Percent**: 42`), and the strict part_000 variant A regex
requires the bold markup (it finds nothing — not 140 — in
`Declared-AI-Percent:140`). -/
theorem C4_counterexample :
    parseDeclaredMain ("**Declared-AI-Percent**: 42" : String).data = none ∧
    parseDeclaredStrict ("Declared-AI-Percent:140" : String).data = none := by
  decide

/-- C4 (amended): only the tolerant variant B regex accepts both claimed
examples (`**Declared-AI-Percent**: 42` ↦ 42 and `Declared-AI-Percent:140` ↦
140, the latter then failing validation as > 100); ai-attribution.js accepts
the unbolded text only, and variant A accepts the bolded text only. -/
theorem C4_declared_examples :
    parseDeclaredTol ("**Declared-AI-Percent**: 42" : String).data = some 42 ∧
    parseDeclaredTol ("Declared-AI-Percent:140" : String).data = some 140 ∧
    declaredInvalid (some 140) = true ∧
    parseDeclaredMain ("Declared-AI-Percent:140" : String).data = some 140 ∧
    parseDeclaredStrict ("**Declared-AI-Percent**: 42" : String).data = some 42 := by
  decide

/-- C5 counterexample to the claim as stated: the message `AI : true` is a
standalone line matching the claim's marker (tolerant of whitespace on both
sides of the colon), yet ai-attribution.js classifies the commit Human for a
non-AI author, because its marker regex allows no whitespace between `AI` and
the colon. -/
theorem C5_counterexample :
    (splitLines ("AI : true" : String).data).any specMarkerLine = true ∧
    isAICommitMain defaultPatternTests janeMeta "AI : true" = false := by
  decide

/-- C5 (amended): the in-message marker rule is evaluated before the identity
rule and overrides any author/committer identity, in both classifier
revisions; the ai-attribution.js marker tolerates whitespace before `AI` and
after the colon but none between `AI` and the colon, while part_000 variant
A tolerates whitespace on both sides of the colon (and does not require a
standalone line). -/
theorem C5_marker_overrides_identity :
    (∀ (pats : List (String → Bool)) (meta : CommitMeta) (msg : String),
      hasMarkerMain msg.data = true → isAICommitMain pats meta msg = true) ∧
    (∀ (pats : List (String → Bool)) (meta : CommitMeta) (msg : String),
      hasMarkerA msg.data = true → isAICommitA pats meta msg = true) ∧
    markerLineMain ("  AI:  TRUE " : String).data = true ∧
    markerLineMain ("AI : true" : String).data = false ∧
    hasMarkerA ("AI : true" : String).data = true :=
  ⟨fun pats meta msg h => by simp [isAICommitMain, h],
   fun pats meta msg h => by simp [isAICommitA, h],
   by decide, by decide, by decide⟩

/-- C5 witness: the marker line `AI: true` classifies a commit by a human
author as AI under the default patterns. -/
theorem C5_witness :
    hasMarkerMain ("AI: true" : String).data = true ∧
    isAICommitMain defaultPatternTests janeMeta "AI: true" = true :=
  ⟨by decide,
   C5_marker_overrides_identity.1 defaultPatternTests janeMeta "AI: true" (by decide)⟩

/-- C6 counterexample to the claim as stated: ai-attribution.js compiles
every pattern-file line with `new RegExp(line, 'i')` without a try/catch, so
one malformed line (here `(`, an unterminated group) raises and aborts the
run instead of being skipped. -/
theorem C6_counterexample :
    loadPatternsMain compileDemo
      ["codex".data, "copilot".data, "chatgpt".data, "openai".data, "[bot]".data]
      "(\ncustom-bot" = .error () := by
  rfl

/-- C6 (amended): in the part_000 revisions every malformed line is skipped
individually and the compiled well-formed lines are appended, in order, to
the default pattern set; ai-attribution.js only reaches the same appended
list when every line compiles (a malformed line aborts it, see
`C6_counterexample`). -/
theorem C6_pattern_lines :
    (∀ (α : Type) (compile : List Char → Except Unit α) (defaults : List α)
      (content : String),
      loadPatternsP0 compile defaults content =
        defaults ++ (extraPatternLines content).filterMap
          (fun l => (compile l).toOption)) ∧
    (∀ (α : Type) (compile : List Char → Except Unit α) (defaults : List α)
      (content : String),
      (∀ l ∈ extraPatternLines content, ((compile l).toOption).isSome = true) →
      loadPatternsMain compile defaults content =
        .ok (defaults ++ (extraPatternLines content).filterMap
          (fun l => (compile l).toOption))) :=
  ⟨fun _ compile defaults _ => loadLoopP0_eq compile _ defaults,
   fun _ compile defaults _ hall => loadLoopMain_ok compile _ defaults hall⟩

/-- C6 witness: a two-line pattern file whose lines all compile is appended
to the defaults by the ai-attribution.js loader. -/
theorem C6_witness :
    (∀ l ∈ extraPatternLines ("custom-bot\nml-agent" : String),
      ((compileDemo l).toOption).isSome = true) ∧
    loadPatternsMain compileDemo ["codex".data] "custom-bot\nml-agent" =
      .ok (["codex".data] ++ (extraPatternLines "custom-bot\nml-agent").filterMap
        (fun l => (compileDemo l).toOption)) :=
  ⟨by decide,
   C6_pattern_lines.2 (List Char) compileDemo ["codex".data] "custom-bot\nml-agent"
     (by decide)⟩

/-- C7: in part_000, at most one refetch is issued, and exactly one is issued
precisely when the event body yields no declaration and a token plus
owner/repo coordinates are present; a refetch failure leaves the declaration
missing (the run continues into validation), and every fatal error of the
pipeline is the declared-validation or missing-sink diagnostic — never a
fetch error. -/
theorem C7_refetch_policy :
    (∀ (prBody : List Char) (token repoFull : String) (pf : Except Unit String),
      (resolveDeclared prBody token repoFull pf).2 ≤ 1 ∧
      ((resolveDeclared prBody token repoFull pf).2 = 1 ↔
        parseDeclaredStrict prBody = none ∧ credsOk token repoFull = true)) ∧
    (∀ (prBody : List Char) (token repoFull : String),
      parseDeclaredStrict prBody = none → credsOk token repoFull = true →
      (resolveDeclared prBody token repoFull (.error ())).1 = none) ∧
    (∀ (cs : List CommitData) (body token repoFull : String)
      (pf : Except Unit String) (envSet : Bool) (msg : String),
      runPart0 cs body token repoFull pf envSet = .error msg →
      msg = declErrP0 ∨ msg = envErrP0) :=
  ⟨fun prBody token repoFull pf => resolveDeclared_count prBody token repoFull pf,
   fun prBody token repoFull h1 h2 =>
     resolveDeclared_fetch_error prBody token repoFull h1 h2,
   fun _ _ _ _ _ _ _ h => runPart0_error_msgs h⟩

/-- C7 witness: with a stale body, a token and repository coordinates, the
failed refetch degrades to a missing declaration and the run fails at
validation with the declared-error diagnostic. -/
theorem C7_witness :
    (resolveDeclared ("stale body" : String).data "tok" "octo/repo" (.error ())).1 = none ∧
    ((resolveDeclared ("stale body" : String).data "tok" "octo/repo" (.error ())).2 = 1) ∧
    (declErrP0 = declErrP0 ∨ declErrP0 = envErrP0) :=
  ⟨C7_refetch_policy.2.1 ("stale body" : String).data "tok" "octo/repo"
     (by decide) (by decide),
   (C7_refetch_policy.1 ("stale body" : String).data "tok" "octo/repo" (.error ())).2.mpr
     ⟨by decide, by decide⟩,
   C7_refetch_policy.2.2 [] "stale body" "tok" "octo/repo" (.error ()) true declErrP0
     (by rfl)⟩

/-- C8: both volume extractors return the (non-negative, `ℕ`-valued) sum of
the per-line contributions of the numstat output, and a line carrying the
binary-file marker (`-` in both count columns) contributes zero in both
variants. -/
theorem C8_volume_sums :
    (∀ out : String, addedLines out = ((splitNL out.data).map addedContrib).sum) ∧
    (∀ out : String, changedLines out = ((splitNL out.data).map changedContrib).sum) ∧
    (∀ line : List Char, parseNumstatLine line = some (none, none) →
      addedContrib line = 0 ∧ changedContrib line = 0) :=
  ⟨addedLines_eq_sum, changedLines_eq_sum, fun _ h => binaryLine_zero h⟩

/-- C8 witness: a git binary-file numstat line contributes zero volume. -/
theorem C8_witness :
    parseNumstatLine ("-\t-\tlogo.png" : String).data = some (none, none) ∧
    addedContrib ("-\t-\tlogo.png" : String).data = 0 ∧
    changedContrib ("-\t-\tlogo.png" : String).data = 0 :=
  ⟨by decide,
   (C8_volume_sums.2.2 ("-\t-\tlogo.png" : String).data (by decide)).1,
   (C8_volume_sums.2.2 ("-\t-\tlogo.png" : String).data (by decide)).2⟩

/-- C9: every successfully parsed declared value is an integer in `[0, 999]`
(one to three captured digits), so the negative and NaN validation branches
are unreachable, and validation fails exactly when the declaration is missing
(also after the refetch) or the parsed value exceeds 100. -/
theorem C9_parse_range_validation :
    (∀ (body : List Char) (n : ℤ), parseDeclaredMain body = some n →
      0 ≤ n ∧ n ≤ 999) ∧
    (∀ (body : List Char) (n : ℤ), parseDeclaredStrict body = some n →
      0 ≤ n ∧ n ≤ 999) ∧
    (∀ body : List Char, declaredInvalid (parseDeclaredMain body) = true ↔
      parseDeclaredMain body = none ∨
      ∃ n, parseDeclaredMain body = some n ∧ 100 < n) ∧
    (∀ (prBody : List Char) (token repoFull : String) (pf : Except Unit String),
      declaredInvalid (resolveDeclared prBody token repoFull pf).1 = true ↔
        (resolveDeclared prBody token repoFull pf).1 = none ∨
        ∃ n, (resolveDeclared prBody token repoFull pf).1 = some n ∧ 100 < n) :=
  ⟨fun _ _ h => parseDeclaredMain_range h,
   fun _ _ h => parseDeclaredStrict_range h,
   fun _ => declaredInvalid_iff (fun _ h => (parseDeclaredMain_range h).1),
   fun _ _ _ _ => declaredInvalid_iff (fun _ h => (resolveDeclared_fst_range h).1)⟩

/-- C9 witness: `Declared-AI-Percent: 140` parses to 140 ∈ [0, 999] and is
rejected by validation exactly because it exceeds 100. -/
theorem C9_witness :
    parseDeclaredMain ("Declared-AI-Percent: 140" : String).data = some 140 ∧
    (0 ≤ (140 : ℤ) ∧ (140 : ℤ) ≤ 999) ∧
    (declaredInvalid (parseDeclaredMain ("Declared-AI-Percent: 140" : String).data) = true ↔
      parseDeclaredMain ("Declared-AI-Percent: 140" : String).data = none ∨
      ∃ n, parseDeclaredMain ("Declared-AI-Percent: 140" : String).data = some n ∧ 100 < n) :=
  ⟨by decide,
   C9_parse_range_validation.1 ("Declared-AI-Percent: 140" : String).data 140 (by decide),
   C9_parse_range_validation.2.2.1 ("Declared-AI-Percent: 140" : String).data⟩

/-- C10: after the aggregation loop, the AI bucket is the summed volume of the
commits classified AI, the Human bucket that of the rest (so each commit
contributes its entire volume to exactly the bucket of its label, and the two
buckets sum to the total volume), and `details` is exactly one row per commit,
in range order, built by `mkDetail` (that commit's volume and label). -/
theorem C10_aggregation_invariants (classify : CommitMeta → String → Bool)
    (vol : CommitData → ℕ) (cs : List CommitData) :
    (aggregate classify vol cs).1 =
      ((cs.filter fun c => classify c.meta c.message).map vol).sum ∧
    (aggregate classify vol cs).2.1 =
      ((cs.filter fun c => !(classify c.meta c.message)).map vol).sum ∧
    (aggregate classify vol cs).1 + (aggregate classify vol cs).2.1 =
      (cs.map vol).sum ∧
    (aggregate classify vol cs).2.2 = cs.map (mkDetail classify vol) := by
  have h := aggregate_eq classify vol cs
  refine ⟨by rw [h], by rw [h], ?_, by rw [h]⟩
  rw [h]
  exact sum_filter_split (fun c => classify c.meta c.message) vol cs

end AIAttr
